import Mathlib

/-! Verification development for the static analysis engine of the Lovable MCP
server (`src/enhanced-simple-server.js`).  The JavaScript analyzers are embedded
shallowly: file contents are `List Char`, the filesystem is a partial map from
path to content (`none` models a read failure), and the result of the per-glob
file enumeration (performed by the external `fast-glob` library) is carried as
explicit lists inside an `Env` record.  Each named analysis operation is
translated into a Lean function over that environment; JavaScript regular
expression scans are translated into character-list scanners that follow the
concrete patterns of the source.  JSON objects and ES `Map`s that are used as
counters are modelled as association lists in insertion order, which is the
iteration order JavaScript guarantees for the string keys involved. -/

namespace Lovable

/-- Single-quote character, written by code so that quote handling stays readable. -/
def squote : Char := Char.ofNat 39

/-- Opening-brace character. -/
def lbrace : Char := Char.ofNat 123

/-- Closing-brace character. -/
def rbrace : Char := Char.ofNat 125

/-- JS regex `\s`, modelled for the ASCII whitespace characters. -/
def isWsChar (c : Char) : Bool :=
  c == ' ' || c == '\t' || c == '\n' || c == '\r' || c == Char.ofNat 11 || c == Char.ofNat 12

/-- JS regex `\w`: ASCII letters, digits and underscore. -/
def isWordChar (c : Char) : Bool := c.isAlphanum || c == '_'

/-- JS regex `["']`: either quote character. -/
def isQuote (c : Char) : Bool := c == '"' || c == squote

/-- Match a literal character sequence at the start of the input, returning the rest. -/
def dropLit : List Char → List Char → Option (List Char)
  | [], s => some s
  | c :: p, d :: s => if d == c then dropLit p s else none
  | _ :: _, [] => none

/-- Case-insensitive variant of `dropLit`, for JS regexes carrying the `i` flag. -/
def dropLitCI : List Char → List Char → Option (List Char)
  | [], s => some s
  | c :: p, d :: s => if d.toLower == c.toLower then dropLitCI p s else none
  | _ :: _, [] => none

/-- JS regex `\s*`: skip any whitespace run. -/
def skipWs (s : List Char) : List Char := s.dropWhile isWsChar

/-- JS regex `\s+`: require one whitespace character, then skip the rest of the run. -/
def skipWs1 : List Char → Option (List Char)
  | c :: t => if isWsChar c then some (skipWs t) else none
  | [] => none

/-- JS regex `["']([^"']+)["']`: a quote, a nonempty quote-free capture, a quote
(either quote character may open or close, exactly as the character classes say). -/
def quotedCapture (s : List Char) : Option (List Char × List Char) :=
  match s with
  | q :: t =>
    if isQuote q then
      let cap := t.takeWhile (fun c => !isQuote c)
      if cap.isEmpty then none
      else
        match t.drop cap.length with
        | q2 :: r => if isQuote q2 then some (cap, r) else none
        | [] => none
    else none
  | [] => none

/-- JS regex `(\w+)`: a nonempty run of word characters, captured. -/
def wordCapture (s : List Char) : Option (List Char × List Char) :=
  let w := s.takeWhile isWordChar
  if w.isEmpty then none else some (w, s.drop w.length)

/-- Run a single-match attempt at every position of the text, left to right,
continuing after the end of each successful match: the semantics of a repeated
`RegExp.exec` / `matchAll` loop with the `g` flag.  All patterns used in the
source only produce nonempty matches, so fuel equal to the text length suffices. -/
def scanAllAux (step : List Char → Option (α × List Char)) : Nat → List Char → List α
  | 0, _ => []
  | _, [] => []
  | Nat.succ n, c :: t =>
    match step (c :: t) with
    | some (a, r) => a :: scanAllAux step n r
    | none => scanAllAux step n t

/-- All matches of a pattern over a text, in document order. -/
def scanAll (step : List Char → Option (α × List Char)) (s : List Char) : List α :=
  scanAllAux step s.length s

/-- Existence of a match: does some suffix of the text satisfy the matcher. -/
def anySuffix (p : List Char → Bool) : List Char → Bool
  | [] => p []
  | c :: t => p (c :: t) || anySuffix p t

/-- JS `String.prototype.includes` / an unanchored regex literal: substring test. -/
def containsSub (pat s : List Char) : Bool := anySuffix (fun t => pat.isPrefixOf t) s

/-- Case-insensitive substring test, for `/.../i` regexes over plain words. -/
def containsSubCI (pat s : List Char) : Bool :=
  containsSub (pat.map Char.toLower) (s.map Char.toLower)

/-- One step of a frequency counter: JS `map.set(k, (map.get(k) || 0) + 1)`.  A key
already present keeps its position (ES `Map` preserves insertion order); a new key
is appended at the end. -/
def bump (m : List (String × Nat)) (c : String) : List (String × Nat) :=
  if m.any (fun p => p.1 == c) then
    m.map (fun p => if p.1 == c then (p.1, p.2 + 1) else p)
  else m ++ [(c, 1)]

/-- Fold an occurrence sequence into the frequency map, in encounter order. -/
def tally (occ : List String) : List (String × Nat) := occ.foldl bump []

/-- Values of a sequence in first-encountered order with duplicates dropped:
JS `[...new Set(xs)]`. -/
def collectNew (seen : List String) : List String → List String
  | [] => []
  | c :: t => if seen.contains c then collectNew seen t else c :: collectNew (seen ++ [c]) t

/-- First-encountered order of the distinct values of a sequence. -/
def firstSeen (occ : List String) : List String := collectNew [] occ

/-- Ordering used to model `entries.sort((a, b) => b[1] - a[1])` on position-tagged
entries: ECMAScript array sort is stable, so sorting by descending count equals
sorting the position-tagged entries by descending count with the original position
breaking ties. -/
def rankLE (a b : Nat × String × Nat) : Prop :=
  b.2.2 < a.2.2 ∨ (a.2.2 = b.2.2 ∧ a.1 ≤ b.1)

instance : DecidableRel rankLE := fun a b => by
  unfold rankLE; exact inferInstance

instance : IsTotal (Nat × String × Nat) rankLE := ⟨by
  intro a b; unfold rankLE; omega⟩

instance : IsTrans (Nat × String × Nat) rankLE := ⟨by
  intro a b c; unfold rankLE; omega⟩

/-- Position-tagged frequency entries sorted by the stable descending-count order. -/
def rankEntries (m : List (String × Nat)) : List (Nat × String × Nat) :=
  List.insertionSort rankLE m.enum

/-- Ranked (name, count) pairs in output order: the sorted entry list of the
frequency map. -/
def rankedPairs (m : List (String × Nat)) : List (String × Nat) :=
  (rankEntries m).map (fun e => e.2)

/-- Last path segment of a `/`-separated relative path: `path.basename` restricted
to the trailing-separator-free paths that `fast-glob` produces. -/
def lastSegment (p : List Char) : List Char := (p.splitOn '/').getLastD []

/-- Node `path.basename(file, ext)` applied to the last segment: the extension is
removed when it is a suffix and the name does not consist of the extension alone
(Node keeps the name whole in that case). -/
def basenameExt (ext base : List Char) : List Char :=
  if base == ext then base
  else if ext.isSuffixOf base then base.take (base.length - ext.length)
  else base

/-- JS `String.prototype.replace` with a plain-string pattern and empty replacement:
delete the first occurrence of the pattern only. -/
def replaceFirst (pat : List Char) : List Char → List Char
  | [] => []
  | c :: t =>
    if pat.isPrefixOf (c :: t) then (c :: t).drop pat.length
    else c :: replaceFirst pat t

/-- Characters of the `.tsx` extension literal. -/
def tsxL : List Char := ".tsx".toList

/-- Characters of the `.jsx` extension literal. -/
def jsxL : List Char := ".jsx".toList

/-- Component name computed by `getComponents` for a file's base name:
`basename(file, '.tsx').replace('.jsx', '')`. -/
def componentBase (base : List Char) : List Char :=
  replaceFirst jsxL (basenameExt tsxL base)

/-- Component name of an enumerated file path. -/
def componentName (file : String) : String :=
  String.mk (componentBase (lastSegment file.toList))

/-- Parsed `package.json` manifest.  Fields that may be absent in the JSON object
are `Option`s; the dependency objects are association lists in key order (absent
objects are the empty list, matching `packageInfo.dependencies || {}`). -/
structure PackageInfo where
  name : Option String
  version : Option String
  dependencies : List (String × String)
  devDependencies : List (String × String)

/-- Lookup of a key in a JSON-object association list. -/
def lookupDep (l : List (String × String)) (k : String) : Option String :=
  (l.find? (fun p => p.1 == k)).map (fun p => p.2)

/-- JS truthiness of an optional string: absent and empty are falsy. -/
def truthy : Option String → Bool
  | none => false
  | some s => s != ""

/-- JS `x?.f || 'Unknown'` for the manifest name/version fields. -/
def orUnknown : Option String → String
  | none => "Unknown"
  | some s => if s == "" then "Unknown" else s

/-- Dependency flag of `analyzeProject`:
`!!(packageInfo?.dependencies?.k || packageInfo?.devDependencies?.k)`. -/
def hasDep (m : Option PackageInfo) (k : String) : Bool :=
  match m with
  | none => false
  | some p => truthy (lookupDep p.dependencies k) || truthy (lookupDep p.devDependencies k)

/-- The ten dependency categories of `analyzeDependencies`. -/
inductive Category
  | react | ui | state | routing | styling | database | build | testing | utilities | other
deriving DecidableEq

/-- JS `name.includes(pat)`. -/
def nameHas (name pat : String) : Bool := containsSub pat.toList name.toList

/-- Category assignment of `categorizePackage`: the source's if/else-if chain over
substring tests of the package name (the `version` argument is not consulted). -/
def categoryOf (name : String) : Category :=
  if nameHas name "react" || nameHas name "@types/react" then .react
  else if nameHas name "ui" || nameHas name "component" || nameHas name "material" ||
      nameHas name "ant" || nameHas name "chakra" then .ui
  else if nameHas name "redux" || nameHas name "zustand" || nameHas name "jotai" ||
      nameHas name "recoil" then .state
  else if nameHas name "router" || nameHas name "navigation" || nameHas name "reach" then .routing
  else if nameHas name "styled" || nameHas name "emotion" || nameHas name "tailwind" ||
      nameHas name "css" || nameHas name "sass" then .styling
  else if nameHas name "supabase" || nameHas name "prisma" || nameHas name "mongoose" ||
      nameHas name "firebase" then .database
  else if nameHas name "vite" || nameHas name "webpack" || nameHas name "rollup" ||
      nameHas name "babel" || nameHas name "esbuild" then .build
  else if nameHas name "test" || nameHas name "jest" || nameHas name "vitest" ||
      nameHas name "cypress" || nameHas name "playwright" then .testing
  else if nameHas name "lodash" || nameHas name "axios" || nameHas name "dayjs" ||
      nameHas name "uuid" || nameHas name "clsx" then .utilities
  else .other

/-- One `{ name, version }` entry pushed into a category bucket. -/
structure Pkg where
  name : String
  version : String
deriving DecidableEq

/-- The full effect of `categorizePackage(name, version)`: the chosen category and
the record pushed into that category's bucket. -/
def categorizePackage (name version : String) : Category × Pkg :=
  (categoryOf name, ⟨name, version⟩)

/-- The source's rule list made explicit, in evaluation order: the nine guarded
categories of the if/else-if chain (the fallback is `other`). -/
def categoryRules : List (Category × (String → Bool)) :=
  [ (.react, fun n => nameHas n "react" || nameHas n "@types/react"),
    (.ui, fun n => nameHas n "ui" || nameHas n "component" || nameHas n "material" ||
      nameHas n "ant" || nameHas n "chakra"),
    (.state, fun n => nameHas n "redux" || nameHas n "zustand" || nameHas n "jotai" ||
      nameHas n "recoil"),
    (.routing, fun n => nameHas n "router" || nameHas n "navigation" || nameHas n "reach"),
    (.styling, fun n => nameHas n "styled" || nameHas n "emotion" || nameHas n "tailwind" ||
      nameHas n "css" || nameHas n "sass"),
    (.database, fun n => nameHas n "supabase" || nameHas n "prisma" || nameHas n "mongoose" ||
      nameHas n "firebase"),
    (.build, fun n => nameHas n "vite" || nameHas n "webpack" || nameHas n "rollup" ||
      nameHas n "babel" || nameHas n "esbuild"),
    (.testing, fun n => nameHas n "test" || nameHas n "jest" || nameHas n "vitest" ||
      nameHas n "cypress" || nameHas n "playwright"),
    (.utilities, fun n => nameHas n "lodash" || nameHas n "axios" || nameHas n "dayjs" ||
      nameHas n "uuid" || nameHas n "clsx") ]

/-- First-match evaluation over an ordered rule list. -/
def firstMatchAux : List (Category × (String → Bool)) → String → Category
  | [], _ => .other
  | r :: rest, n => if r.2 n then r.1 else firstMatchAux rest n

/-- First-match-wins reading of the rule list: the category of the first rule whose
predicate accepts the name, with fallback `other`. -/
def firstMatchCategory (name : String) : Category :=
  firstMatchAux categoryRules name

/-- Readable filesystem content by relative path; `none` models a file whose read
(`readFile(fullPath, 'utf-8')`) throws. -/
abbrev FileSys := String → Option (List Char)

/-- Analysis environment: the project's filesystem together with the result of each
glob enumeration the server performs.  Enumeration is done by the external
`fast-glob` library, so its outputs are inputs of the model.  `sourceFiles` is the
`**/*.{tsx,jsx,ts,js}` enumeration (used by the tailwind, hooks, api-call and
schema code loops), `componentFiles` is `**/*.{tsx,jsx}`, `routingFiles` the
router/routes/App/main/index enumeration, `schemaFiles` the schema/database/
migrations/supabase/types enumeration, and `allFiles` the `**/*` enumeration of
the structure resource.  `manifest` is the parsed `package.json` (`none` when the
file is absent or unparsable) and `packageRaw` its raw text. -/
structure Env where
  root : String
  fs : FileSys
  manifest : Option PackageInfo
  packageRaw : Option (List Char)
  sourceFiles : List String
  componentFiles : List String
  routingFiles : List String
  schemaFiles : List String
  allFiles : List String

/-- Outcome of one analysis operation: the structured report, or the structured
error object `{ error: message }` produced by the operation's catch block. -/
inductive OpResult (α : Type) where
  | ok (r : α)
  | err (msg : String)
deriving DecidableEq

/-- Boolean test for the error variant. -/
def OpResult.isErr : OpResult α → Bool
  | .ok _ => false
  | .err _ => true

/-- Successful report, if any. -/
def OpResult.getOk? : OpResult α → Option α
  | .ok r => some r
  | .err _ => none

/-- Read every listed file in order; the first failing read aborts the whole batch
(the loops of the source `await` each read inside one function-level try/catch, so
one exception unwinds the entire loop). -/
def readAll (fs : FileSys) : List String → Option (List (String × List Char))
  | [] => some []
  | f :: rest =>
    match fs f with
    | none => none
    | some c => (readAll fs rest).map (fun rc => (f, c) :: rc)

/-- Error message standing in for the host exception text of a failed read. -/
def readErrMsg : String := "file read error"

/-- Report of `analyze_project`. -/
structure ProjectReport where
  projectPath : String
  packageName : String
  packageVersion : String
  totalFiles : Nat
  tsxFiles : Nat
  jsxFiles : Nat
  tsFiles : Nat
  jsFiles : Nat
  hasReact : Bool
  hasTypeScript : Bool
  hasVite : Bool
  hasNext : Bool
  hasTailwind : Bool
  hasSupabase : Bool
  timestamp : String
deriving DecidableEq

/-- JS `f.endsWith(suffix)` on file paths. -/
def endsWithSub (f suffix : String) : Bool := suffix.toList.isSuffixOf f.toList

/-- The `analyze_project` operation.  The manifest read failure is caught inside
and degrades to `null`; no step after that can throw, so the operation always
returns a report.  `now` is the `new Date().toISOString()` value, an external
input of the model. -/
def analyzeProject (env : Env) (now : String) : OpResult ProjectReport :=
  .ok
    { projectPath := env.root
      packageName := orUnknown (env.manifest.bind (fun p => p.name))
      packageVersion := orUnknown (env.manifest.bind (fun p => p.version))
      totalFiles := env.sourceFiles.length
      tsxFiles := (env.sourceFiles.filter (fun f => endsWithSub f ".tsx")).length
      jsxFiles := (env.sourceFiles.filter (fun f => endsWithSub f ".jsx")).length
      tsFiles := (env.sourceFiles.filter (fun f => endsWithSub f ".ts")).length
      jsFiles := (env.sourceFiles.filter (fun f => endsWithSub f ".js")).length
      hasReact := hasDep env.manifest "react"
      hasTypeScript := hasDep env.manifest "typescript"
      hasVite := hasDep env.manifest "vite"
      hasNext := hasDep env.manifest "next"
      hasTailwind := hasDep env.manifest "tailwindcss"
      hasSupabase := hasDep env.manifest "@supabase/supabase-js"
      timestamp := now }

/-- Category buckets of `analyzeDependencies`, in declaration order. -/
structure DepCategories where
  react : List Pkg
  ui : List Pkg
  state : List Pkg
  routing : List Pkg
  styling : List Pkg
  database : List Pkg
  build : List Pkg
  testing : List Pkg
  utilities : List Pkg
  other : List Pkg
deriving DecidableEq

/-- Empty buckets. -/
def DepCategories.empty : DepCategories := ⟨[], [], [], [], [], [], [], [], [], []⟩

/-- Push one package into the bucket chosen by `categorizePackage`. -/
def DepCategories.push (cs : DepCategories) (name version : String) : DepCategories :=
  let (cat, pkg) := categorizePackage name version
  match cat with
  | .react => { cs with react := cs.react ++ [pkg] }
  | .ui => { cs with ui := cs.ui ++ [pkg] }
  | .state => { cs with state := cs.state ++ [pkg] }
  | .routing => { cs with routing := cs.routing ++ [pkg] }
  | .styling => { cs with styling := cs.styling ++ [pkg] }
  | .database => { cs with database := cs.database ++ [pkg] }
  | .build => { cs with build := cs.build ++ [pkg] }
  | .testing => { cs with testing := cs.testing ++ [pkg] }
  | .utilities => { cs with utilities := cs.utilities ++ [pkg] }
  | .other => { cs with other := cs.other ++ [pkg] }

/-- Report of `analyze_dependencies`. -/
structure DepsReport where
  totalDependencies : Nat
  totalDevDependencies : Nat
  categories : DepCategories
  hasReact : Bool
  hasNext : Bool
  hasVite : Bool
  hasTailwind : Bool
  hasSupabase : Bool
  hasTypeScript : Bool
deriving DecidableEq

/-- The `analyze_dependencies` operation: a missing or unparsable manifest is
reported as the structured error `{ error: 'No package.json found' }`; otherwise
every dependency and then every devDependency is pushed through
`categorizePackage` in object order. -/
def analyzeDependencies (env : Env) : OpResult DepsReport :=
  match env.manifest with
  | none => .err "No package.json found"
  | some p =>
    let deps := p.dependencies
    let devDeps := p.devDependencies
    let cs := (deps ++ devDeps).foldl (fun cs kv => cs.push kv.1 kv.2) DepCategories.empty
    .ok
      { totalDependencies := deps.length
        totalDevDependencies := devDeps.length
        categories := cs
        hasReact := truthy (lookupDep deps "react")
        hasNext := truthy (lookupDep deps "next")
        hasVite := truthy (lookupDep deps "vite") || truthy (lookupDep devDeps "vite")
        hasTailwind := truthy (lookupDep deps "tailwindcss") ||
          truthy (lookupDep devDeps "tailwindcss")
        hasSupabase := truthy (lookupDep deps "@supabase/supabase-js")
        hasTypeScript := truthy (lookupDep devDeps "typescript") ||
          truthy (lookupDep deps "typescript") }

/-- Try several literals in order at the start of the input (a regex alternation of
plain words). -/
def dropLitAny (lits : List (List Char)) (s : List Char) : Option (List Char) :=
  lits.findSome? (fun l => dropLit l s)

/-- JS regex `export\s+default`. -/
def matchExportDefault (s : List Char) : Bool :=
  (do
    let r ← dropLit "export".toList s
    let r ← skipWs1 r
    let _ ← dropLit "default".toList r
    pure ()).isSome

/-- JS regex `export\s+(?:const|function|class|interface|type)`. -/
def matchNamedExport (s : List Char) : Bool :=
  (do
    let r ← dropLit "export".toList s
    let r ← skipWs1 r
    let _ ← dropLitAny
      ["const".toList, "function".toList, "class".toList, "interface".toList,
        "type".toList] r
    pure ()).isSome

/-- JS regex `export\s+(?:default\s+)?(?:function|const|class)`. -/
def matchExportComponent (s : List Char) : Bool :=
  match (dropLit "export".toList s).bind skipWs1 with
  | none => false
  | some r =>
    (match (dropLit "default".toList r).bind skipWs1 with
      | some r2 =>
        (dropLitAny ["function".toList, "const".toList, "class".toList] r2).isSome
      | none => false)
    || (dropLitAny ["function".toList, "const".toList, "class".toList] r).isSome

/-- Per-file component record assembled by `getComponents`. -/
structure ComponentInfo where
  path : String
  name : String
  size : Nat
  hasDefaultExport : Bool
  hasNamedExports : Bool
  hasJSX : Bool
  hasProps : Bool
  hasState : Bool
  hasEffects : Bool
  isComponent : Bool
deriving DecidableEq

/-- Per-file analysis of `getComponents`: the regex presence flags and the name
derived from the file name. -/
def componentOf (file : String) (content : List Char) : ComponentInfo :=
  { path := file
    name := componentName file
    size := content.length
    hasDefaultExport := anySuffix matchExportDefault content
    hasNamedExports := anySuffix matchNamedExport content
    hasJSX := content.contains '<' && content.contains '>'
    hasProps := containsSub "props".toList content || containsSub "Props".toList content
    hasState := containsSub "useState".toList content || containsSub "setState".toList content ||
      containsSub "state".toList content
    hasEffects := containsSub "useEffect".toList content
    isComponent := anySuffix matchExportComponent content }

/-- Report of `get_components`. -/
structure ComponentsReport where
  totalComponents : Nat
  analyzed : Nat
  components : List ComponentInfo
deriving DecidableEq

/-- The `get_components` operation: analyze the first 20 enumerated component
files; the whole loop sits inside one try/catch, so any failed read aborts the
operation with the structured error object. -/
def getComponents (env : Env) : OpResult ComponentsReport :=
  match readAll env.fs (env.componentFiles.take 20) with
  | none => .err readErrMsg
  | some rc =>
    .ok
      { totalComponents := env.componentFiles.length
        analyzed := rc.length
        components := rc.map (fun fc => componentOf fc.1 fc.2) }

/-- JS regex `path\s*[:=]\s*["']([^"']+)["']`. -/
def routePathStep (s : List Char) : Option (String × List Char) := do
  let r ← dropLit "path".toList s
  let r ← (match skipWs r with
    | c :: t => if c == ':' || c == '=' then some t else none
    | [] => none)
  let (cap, rest) ← quotedCapture (skipWs r)
  pure (String.mk cap, rest)

/-- JS regex `route\s*[:=]\s*["']([^"']+)["']`. -/
def routeKwStep (s : List Char) : Option (String × List Char) := do
  let r ← dropLit "route".toList s
  let r ← (match skipWs r with
    | c :: t => if c == ':' || c == '=' then some t else none
    | [] => none)
  let (cap, rest) ← quotedCapture (skipWs r)
  pure (String.mk cap, rest)

/-- Tail of the `<Route ...>` pattern after `i` characters of the `[^>]+` run have
been consumed: `path\s*=\s*["']([^"']+)["']`. -/
def routeTagTail (r : List Char) (i : Nat) : Option (String × List Char) := do
  let r2 ← dropLit "path".toList (r.drop i)
  let r2 ← (match skipWs r2 with
    | c :: t => if c == '=' then some t else none
    | [] => none)
  let (cap, rest) ← quotedCapture (skipWs r2)
  pure (String.mk cap, rest)

/-- JS regex `<Route[^>]+path\s*=\s*["']([^"']+)["']`: the literal `<Route`, then a
nonempty greedy run without `>` (longest-first, as the backtracking engine tries
it), then the `path=` part. -/
def routeTagStep (s : List Char) : Option (String × List Char) := do
  let r ← dropLit "<Route".toList s
  let n := (r.takeWhile (fun c => c != '>')).length
  ((List.range n).reverse.map (fun k => k + 1)).findSome? (fun i => routeTagTail r i)

/-- JS regex `\{\s*path\s*:\s*["']([^"']+)["']`. -/
def braceRouteStep (s : List Char) : Option (String × List Char) := do
  let r ← (match s with
    | c :: t => if c == lbrace then some t else none
    | [] => none)
  let r ← dropLit "path".toList (skipWs r)
  let r ← (match skipWs r with
    | c :: t => if c == ':' then some t else none
    | [] => none)
  let (cap, rest) ← quotedCapture (skipWs r)
  pure (String.mk cap, rest)

/-- File-level protection heuristic: `/protected|private|auth/i.test(content)`. -/
def isProtectedContent (content : List Char) : Bool :=
  containsSubCI "protected".toList content || containsSubCI "private".toList content ||
    containsSubCI "auth".toList content

/-- One extracted route fact. -/
structure RouteFact where
  path : String
  file : String
  component : String
  isProtected : Bool
deriving DecidableEq

/-- Route facts of one file: all matches of the four route patterns, pattern by
pattern in the order of the source's `routePatterns` array. -/
def routesOfFile (file : String) (content : List Char) : List RouteFact :=
  let mk := fun (p : String) =>
    RouteFact.mk p file (componentName file) (isProtectedContent content)
  ((scanAll routePathStep content).map mk) ++ ((scanAll routeKwStep content).map mk) ++
    ((scanAll routeTagStep content).map mk) ++ ((scanAll braceRouteStep content).map mk)

/-- Report of `get_routing_structure`. -/
structure RoutingReport where
  routingFiles : List String
  routes : List RouteFact
  totalRoutes : Nat
  hasReactRouter : Bool
deriving DecidableEq

/-- The `get_routing_structure` operation: route facts over every enumerated
routing file, truncated to 20 in the report; a failed read aborts the operation. -/
def getRoutingStructure (env : Env) : OpResult RoutingReport :=
  match readAll env.fs env.routingFiles with
  | none => .err readErrMsg
  | some rc =>
    let routes := (rc.map (fun fc => routesOfFile fc.1 fc.2)).flatten
    .ok
      { routingFiles := env.routingFiles
        routes := routes.take 20
        totalRoutes := routes.length
        hasReactRouter := routes.any (fun r => containsSub "/".toList r.path.toList) }

/-- JS regex `className\s*=\s*["']([^"']+)["']`. -/
def classNameAttrStep (s : List Char) : Option (String × List Char) := do
  let r ← dropLit "className".toList s
  let r ← (match skipWs r with
    | c :: t => if c == '=' then some t else none
    | [] => none)
  let (cap, rest) ← quotedCapture (skipWs r)
  pure (String.mk cap, rest)

/-- Tail of the braced `className` pattern after `i` characters of the first
`[^}]*` run: `["']([^"']+)["'][^}]*}`. -/
def classBraceTail (r : List Char) (i : Nat) : Option (String × List Char) := do
  let (cap, r2) ← quotedCapture (r.drop i)
  let k := (r2.takeWhile (fun c => c != rbrace)).length
  match r2.drop k with
  | c :: rest => if c == rbrace then some (String.mk cap, rest) else none
  | [] => none

/-- JS regex `className\s*=\s*{[^}]*["']([^"']+)["'][^}]*}`: the first `[^}]*` is
greedy, so the longest prefix run is tried first. -/
def classNameBraceStep (s : List Char) : Option (String × List Char) := do
  let r ← dropLit "className".toList s
  let r ← (match skipWs r with
    | c :: t => if c == '=' then some t else none
    | [] => none)
  let r ← (match skipWs r with
    | c :: t => if c == lbrace then some t else none
    | [] => none)
  let n := (r.takeWhile (fun c => c != rbrace)).length
  ((List.range (n + 1)).reverse).findSome? (fun i => classBraceTail r i)

/-- JS regex `class\s*=\s*["']([^"']+)["']`. -/
def classAttrStep (s : List Char) : Option (String × List Char) := do
  let r ← dropLit "class".toList s
  let r ← (match skipWs r with
    | c :: t => if c == '=' then some t else none
    | [] => none)
  let (cap, rest) ← quotedCapture (skipWs r)
  pure (String.mk cap, rest)

/-- JS `str.split(/\s+/)`: split at each maximal whitespace run; a leading or
trailing run contributes an empty piece, exactly as the ECMAScript split does. -/
def jsSplitWsAux : Nat → List Char → List Char → List String
  | _, cur, [] => [String.mk cur.reverse]
  | 0, cur, rest => [String.mk (cur.reverse ++ rest)]
  | Nat.succ n, cur, c :: t =>
    if isWsChar c then String.mk cur.reverse :: jsSplitWsAux n [] (skipWs t)
    else jsSplitWsAux n (c :: cur) t

/-- Split a string at whitespace runs, ECMAScript style. -/
def jsSplitWs (s : List Char) : List String := jsSplitWsAux s.length [] s

/-- All `className`/`class` attribute captures of one file, pattern by pattern in
the order the source spreads the three `matchAll` results. -/
def classMatchesOf (content : List Char) : List String :=
  scanAll classNameAttrStep content ++ scanAll classNameBraceStep content ++
    scanAll classAttrStep content

/-- The `classNames` array of one file: every capture split at whitespace, raw
(possible empty pieces included, as in the source). -/
def fileClassNames (content : List Char) : List String :=
  ((classMatchesOf content).map (fun m => jsSplitWs m.toList)).flatten

/-- The class tokens of one file that reach the frequency map: the nonempty
pieces (`cls.trim() && cls.length > 0`). -/
def fileClassTokens (content : List Char) : List String :=
  (fileClassNames content).filter (fun c => c != "")

/-- Per-file entry of the tailwind report's `fileUsage` array. -/
structure FileClassUsage where
  file : String
  uniqueClasses : Nat
  totalClasses : Nat
  topClasses : List String
deriving DecidableEq

/-- Prefix-alternation test of the bucket regexes (`/^(a|b|...)/`). -/
def startsWithAny (pats : List String) (cls : String) : Bool :=
  pats.any (fun p => p.toList.isPrefixOf cls.toList)

/-- JS regex `/^(flex|grid|block|inline|hidden|w-|h-|p-|m-|space-|gap-)/`. -/
def layoutPred (cls : String) : Bool :=
  startsWithAny ["flex", "grid", "block", "inline", "hidden", "w-", "h-", "p-", "m-",
    "space-", "gap-"] cls

/-- JS regex `/^(bg-|text-|border-|from-|to-|via-)/`. -/
def colorsPred (cls : String) : Bool :=
  startsWithAny ["bg-", "text-", "border-", "from-", "to-", "via-"] cls

/-- JS regex `/^(text-|font-|leading-|tracking-|uppercase|lowercase)/`. -/
def typographyPred (cls : String) : Bool :=
  startsWithAny ["text-", "font-", "leading-", "tracking-", "uppercase", "lowercase"] cls

/-- JS regex `/^(sm:|md:|lg:|xl:|2xl:)/`. -/
def responsivePred (cls : String) : Bool :=
  startsWithAny ["sm:", "md:", "lg:", "xl:", "2xl:"] cls

/-- The `sortedClasses` value of `getTailwindUsage` for a given token sequence:
frequency entries sorted by descending count (stable) and truncated to the top 30. -/
def sortedClassesOf (occ : List String) : List (String × Nat) :=
  (rankedPairs (tally occ)).take 30

/-- One pattern bucket: the top-30 entries passing the bucket predicate, truncated
to 10 for the report. -/
def bucketOf (pred : String → Bool) (occ : List String) : List (String × Nat) :=
  ((sortedClassesOf occ).filter (fun p => pred p.1)).take 10

/-- Report of `get_tailwind_usage`. -/
structure TailwindReport where
  totalFiles : Nat
  analyzedFiles : Nat
  totalUniqueClasses : Nat
  mostUsedClasses : List (String × Nat)
  layout : List (String × Nat)
  colors : List (String × Nat)
  typography : List (String × Nat)
  responsive : List (String × Nat)
  fileUsage : List FileClassUsage
deriving DecidableEq

/-- The `get_tailwind_usage` operation over the first 50 enumerated source files;
a failed read aborts the operation with the structured error object. -/
def getTailwindUsage (env : Env) : OpResult TailwindReport :=
  match readAll env.fs (env.sourceFiles.take 50) with
  | none => .err readErrMsg
  | some rc =>
    let occ := (rc.map (fun fc => fileClassTokens fc.2)).flatten
    let fileUsage := rc.filterMap (fun fc =>
      let names := fileClassNames fc.2
      if names.length > 0 then
        some (FileClassUsage.mk fc.1 (firstSeen names).length names.length
          ((firstSeen names).take 10))
      else none)
    .ok
      { totalFiles := env.sourceFiles.length
        analyzedFiles := fileUsage.length
        totalUniqueClasses := (tally occ).length
        mostUsedClasses := sortedClassesOf occ
        layout := bucketOf layoutPred occ
        colors := bucketOf colorsPred occ
        typography := bucketOf typographyPred occ
        responsive := bucketOf responsivePred occ
        fileUsage := fileUsage.take 10 }

/-- The fixed built-in hook list of `getHooksUsage`. -/
def builtInHooks : List String :=
  ["useState", "useEffect", "useContext", "useReducer", "useCallback",
    "useMemo", "useRef", "useLayoutEffect", "useDebugValue", "useId"]

/-- Right word boundary: the next character is absent or not a word character. -/
def boundaryOkAfter : List Char → Bool
  | [] => true
  | d :: _ => !isWordChar d

/-- Count of whole-word occurrences (JS `\bword\b` with the `g` flag).  The flag
argument records whether the previous character was a word character, which is
what the left `\b` inspects; after a match it is true because every counted word
ends in a word character. -/
def countWordAux (w : List Char) : Nat → Bool → List Char → Nat
  | 0, _, _ => 0
  | _, _, [] => 0
  | Nat.succ n, prevWord, c :: t =>
    if prevWord then countWordAux w n (isWordChar c) t
    else
      match dropLit w (c :: t) with
      | some r =>
        if boundaryOkAfter r then 1 + countWordAux w n true r
        else countWordAux w n (isWordChar c) t
      | none => countWordAux w n (isWordChar c) t

/-- Count of whole-word occurrences of `w` in a text. -/
def countWordOcc (w : List Char) (s : List Char) : Nat := countWordAux w s.length false s

/-- All matches of the custom-hook pattern `\buse[A-Z][a-zA-Z0-9]*\b`: left word
boundary, literal `use`, an upper-case letter, a maximal alphanumeric run, and a
right boundary (an underscore after the run defeats every backtracking choice, so
the position yields no match at all). -/
def customHookAux : Nat → Bool → List Char → List String
  | 0, _, _ => []
  | _, _, [] => []
  | Nat.succ n, prevWord, c :: t =>
    if prevWord then customHookAux n (isWordChar c) t
    else
      match dropLit "use".toList (c :: t) with
      | some (d :: r) =>
        if d.isUpper then
          let run := r.takeWhile Char.isAlphanum
          match r.drop run.length with
          | e :: rest2 =>
            if e == '_' then customHookAux n (isWordChar c) t
            else
              String.mk ('u' :: 's' :: 'e' :: d :: run) :: customHookAux n true (e :: rest2)
          | [] => [String.mk ('u' :: 's' :: 'e' :: d :: run)]
        else customHookAux n (isWordChar c) t
      | _ => customHookAux n (isWordChar c) t

/-- All custom-hook-shaped identifiers of a file, in document order (built-in hook
names included; the caller filters them). -/
def customMatchesOf (content : List Char) : List String :=
  customHookAux content.length false content

/-- Custom-hook occurrences of a file: the custom-hook-shaped identifiers that are
not built-in hooks. -/
def customOf (content : List Char) : List String :=
  (customMatchesOf content).filter (fun h => !builtInHooks.contains h)

/-- Built-in hooks found in a file with their occurrence counts, in the fixed
order of `builtInHooks` (hooks with zero matches are skipped). -/
def builtinCounts (content : List Char) : List (String × Nat) :=
  builtInHooks.filterMap (fun h =>
    let n := countWordOcc h.toList content
    if n > 0 then some (h, n) else none)

/-- Add `k` to a counter key at once: `map.set(h, (map.get(h) || 0) + k)`. -/
def bumpBy (m : List (String × Nat)) (c : String) (k : Nat) : List (String × Nat) :=
  if m.any (fun p => p.1 == c) then
    m.map (fun p => if p.1 == c then (p.1, p.2 + k) else p)
  else m ++ [(c, k)]

/-- The `hookUsage` map over the analyzed files, built file by file: built-in
counts first (in list order), then one bump per custom occurrence. -/
def hookMapOfFiles (contents : List (List Char)) : List (String × Nat) :=
  contents.foldl (fun m c =>
    (customOf c).foldl bump ((builtinCounts c).foldl (fun m p => bumpBy m p.1 p.2) m)) []

/-- Per-file entry of the hooks report's `fileUsage` array. -/
structure FileHookUsage where
  file : String
  builtIn : List String
  custom : List String
deriving DecidableEq

/-- Report of `get_hooks_usage`. -/
structure HooksReport where
  totalFiles : Nat
  analyzedFiles : Nat
  totalHooksUsage : Nat
  mostUsedHooks : List (String × Nat)
  customHooksFound : List String
  fileUsage : List FileHookUsage
deriving DecidableEq

/-- The `get_hooks_usage` operation over the first 50 enumerated source files; a
failed read aborts the operation with the structured error object. -/
def getHooksUsage (env : Env) : OpResult HooksReport :=
  match readAll env.fs (env.sourceFiles.take 50) with
  | none => .err readErrMsg
  | some rc =>
    let hookMap := hookMapOfFiles (rc.map (fun fc => fc.2))
    let fileUsage := rc.filterMap (fun fc =>
      let b := (builtinCounts fc.2).map (fun p => p.1)
      let cm := customMatchesOf fc.2
      if b.length > 0 || cm.length > 0 then
        some (FileHookUsage.mk fc.1 b (cm.filter (fun h => !builtInHooks.contains h)))
      else none)
    .ok
      { totalFiles := env.sourceFiles.length
        analyzedFiles := fileUsage.length
        totalHooksUsage := (hookMap.map (fun p => p.2)).sum
        mostUsedHooks := (rankedPairs hookMap).take 20
        customHooksFound := firstSeen ((rc.map (fun fc => customOf fc.2)).flatten)
        fileUsage := fileUsage.take 15 }

/-- Kinds of extracted API call facts, with their JSON type tags. -/
inductive ApiCallKind
  | fetch | axios | supabase | apiEndpoint
deriving DecidableEq

/-- JSON `type` tag of an API call fact. -/
def ApiCallKind.tag : ApiCallKind → String
  | .fetch => "fetch"
  | .axios => "axios"
  | .supabase => "supabase"
  | .apiEndpoint => "api_endpoint"

/-- One extracted API call fact (fields that a shape does not set are `none`). -/
structure ApiCall where
  kind : ApiCallKind
  url : Option String
  method : Option String
  table : Option String
  endpoint : Option String
  file : String
deriving DecidableEq

/-- JS regex `fetch\s*\(\s*["']([^"']+)["']`. -/
def fetchStep (s : List Char) : Option (String × List Char) := do
  let r ← dropLit "fetch".toList s
  let r ← (match skipWs r with
    | c :: t => if c == '(' then some t else none
    | [] => none)
  let (cap, rest) ← quotedCapture (skipWs r)
  pure (String.mk cap, rest)

/-- Method names of the axios pattern's alternation, in order. -/
def axiosMethods : List String := ["get", "post", "put", "delete", "patch"]

/-- ASCII upper-casing: JS `String.prototype.toUpperCase` on the method names. -/
def upper (s : String) : String := String.mk (s.toList.map Char.toUpper)

/-- JS regex `axios\s*\.\s*(get|post|put|delete|patch)\s*\(\s*["']([^"']+)["']`. -/
def axiosStep (s : List Char) : Option ((String × String) × List Char) := do
  let r ← dropLit "axios".toList s
  let r ← (match skipWs r with
    | c :: t => if c == '.' then some t else none
    | [] => none)
  let r := skipWs r
  let (m, r) ← axiosMethods.findSome? (fun meth =>
    (dropLit meth.toList r).map (fun rr => (meth, rr)))
  let r ← (match skipWs r with
    | c :: t => if c == '(' then some t else none
    | [] => none)
  let (cap, rest) ← quotedCapture (skipWs r)
  pure ((m, String.mk cap), rest)

/-- JS regex `supabase\s*\.\s*from\s*\(\s*["']([^"']+)["']\)` (note: no whitespace
is allowed before the closing parenthesis, exactly as in the source pattern). -/
def supabaseStep (s : List Char) : Option (String × List Char) := do
  let r ← dropLit "supabase".toList s
  let r ← (match skipWs r with
    | c :: t => if c == '.' then some t else none
    | [] => none)
  let r ← dropLit "from".toList (skipWs r)
  let r ← (match skipWs r with
    | c :: t => if c == '(' then some t else none
    | [] => none)
  let (cap, r2) ← quotedCapture (skipWs r)
  match r2 with
  | c :: rest => if c == ')' then some (String.mk cap, rest) else none
  | [] => none

/-- JS regex `["']\/api\/([^"']+)["']`. -/
def endpointStep (s : List Char) : Option (String × List Char) :=
  match s with
  | q :: t =>
    if isQuote q then do
      let r ← dropLit "/api/".toList t
      let cap := r.takeWhile (fun c => !isQuote c)
      if cap.isEmpty then none
      else
        match r.drop cap.length with
        | q2 :: rest => if isQuote q2 then some (String.mk cap, rest) else none
        | [] => none
    else none
  | [] => none

/-- API call facts of one file: the four shapes scanned one after the other, as
the source's four `while`-loops do. -/
def apiCallsOfFile (file : String) (content : List Char) : List ApiCall :=
  ((scanAll fetchStep content).map (fun u =>
    ApiCall.mk .fetch (some u) (some "GET") none none file)) ++
  ((scanAll axiosStep content).map (fun mu =>
    ApiCall.mk .axios (some mu.2) (some (upper mu.1)) none none file)) ++
  ((scanAll supabaseStep content).map (fun tb =>
    ApiCall.mk .supabase none none (some tb) none file)) ++
  ((scanAll endpointStep content).map (fun e =>
    ApiCall.mk .apiEndpoint none none none (some e) file))

/-- Host extraction standing in for the WHATWG `new URL` constructor, modelled for
the absolute `http(s)://host...` URLs this analyzer is aimed at; every other
string models the constructor throwing. -/
def parseHost? (u : String) : Option String :=
  match dropLitAny ["http://".toList, "https://".toList] u.toList with
  | some r =>
    let h := r.takeWhile (fun c => c != '/' && c != ':' && c != '?' && c != '#')
    if h.isEmpty then none else some (String.mk h)
  | none => none

/-- Report of `analyze_api_calls`. -/
structure ApiReport where
  totalApiCalls : Nat
  apiTypes : List (String × Nat)
  methods : List (String × Nat)
  domains : List (String × Nat)
  calls : List ApiCall
  hasSupabase : Bool
  hasAxios : Bool
  hasFetch : Bool
deriving DecidableEq

/-- The `analyze_api_calls` operation over the first 50 enumerated source files; a
failed read aborts the operation with the structured error object. -/
def analyzeApiCalls (env : Env) : OpResult ApiReport :=
  match readAll env.fs (env.sourceFiles.take 50) with
  | none => .err readErrMsg
  | some rc =>
    let calls := (rc.map (fun fc => apiCallsOfFile fc.1 fc.2)).flatten
    let apiTypes := calls.foldl (fun m c => bump m c.kind.tag) []
    let methods := calls.foldl (fun m c =>
      match c.method with
      | some meth => bump m meth
      | none => m) []
    let domains := calls.foldl (fun m c =>
      match c.url with
      | some u =>
        match parseHost? u with
        | some h => bump m h
        | none => if "/".toList.isPrefixOf u.toList then bump m "relative" else m
      | none => m) []
    .ok
      { totalApiCalls := calls.length
        apiTypes := apiTypes
        methods := methods
        domains := domains
        calls := calls.take 20
        hasSupabase := apiTypes.any (fun p => p.1 == "supabase")
        hasAxios := apiTypes.any (fun p => p.1 == "axios")
        hasFetch := apiTypes.any (fun p => p.1 == "fetch") }

/-- One extracted SQL table fact. -/
structure TableFact where
  name : String
  file : String
  definition : String
deriving DecidableEq

/-- One extracted schema-suggestive TypeScript type fact. -/
structure TypeFact where
  name : String
  file : String
  kind : String
  definition : String
deriving DecidableEq

/-- One extracted row-level-security policy fact. -/
structure PolicyFact where
  name : String
  table : String
  file : String
deriving DecidableEq

/-- One extracted SQL function fact. -/
structure FnFact where
  name : String
  file : String
deriving DecidableEq

/-- One extracted foreign-key relationship fact. -/
structure RelFact where
  referencedTable : String
  file : String
deriving DecidableEq

/-- One supabase table reference. -/
structure SupaUse where
  table : String
  file : String
deriving DecidableEq

/-- Truncated match preview: JS `match.slice(0, 200) + '...'`. -/
def truncDefn (full : String) : String := String.mk (full.toList.take 200) ++ "..."

/-- JS regex `CREATE\s+TABLE\s+(\w+)\s*\([^)]+\)` with the `i` flag, returning the
captured table name and the full matched text. -/
def createTableStep (s : List Char) : Option ((String × String) × List Char) := do
  let r ← dropLitCI "create".toList s
  let r ← skipWs1 r
  let r ← dropLitCI "table".toList r
  let r ← skipWs1 r
  let (w, r) ← wordCapture r
  let r2 ← (match skipWs r with
    | c :: t => if c == '(' then some t else none
    | [] => none)
  let inner := r2.takeWhile (fun c => c != ')')
  if inner.isEmpty then none
  else
    match r2.drop inner.length with
    | c :: rest =>
      if c == ')' then some ((String.mk w, String.mk (s.take (s.length - rest.length))), rest)
      else none
    | [] => none

/-- The schema-suggestive name substrings, lower-cased. -/
def schemaKeywords : List (List Char) :=
  ["database".toList, "table".toList, "row".toList, "insert".toList, "update".toList]

/-- Does a captured word contain one of the schema keywords, case-insensitively:
the `\w*(?:Database|Table|Row|Insert|Update)\w*` shape under the `i` flag. -/
def wordHasSchemaKw (w : List Char) : Bool :=
  schemaKeywords.any (fun k => containsSub k (w.map Char.toLower))

/-- JS regex `interface\s+(\w*(?:Database|Table|Row|Insert|Update)\w*)\s*\{[^}]+\}`
with the `i` flag. -/
def interfaceStep (s : List Char) : Option ((String × String) × List Char) := do
  let r ← dropLitCI "interface".toList s
  let r ← skipWs1 r
  let (w, r) ← wordCapture r
  if wordHasSchemaKw w then
    let r2 ← (match skipWs r with
      | c :: t => if c == lbrace then some t else none
      | [] => none)
    let body := r2.takeWhile (fun c => c != rbrace)
    if body.isEmpty then none
    else
      match r2.drop body.length with
      | c :: rest =>
        if c == rbrace then
          some ((String.mk w, String.mk (s.take (s.length - rest.length))), rest)
        else none
      | [] => none
  else none

/-- JS regex `type\s+(\w*(?:Database|Table|Row|Insert|Update)\w*)\s*=[^;]+` with
the `i` flag. -/
def typeAliasStep (s : List Char) : Option ((String × String) × List Char) := do
  let r ← dropLitCI "type".toList s
  let r ← skipWs1 r
  let (w, r) ← wordCapture r
  if wordHasSchemaKw w then
    let r2 ← (match skipWs r with
      | c :: t => if c == '=' then some t else none
      | [] => none)
    let body := r2.takeWhile (fun c => c != ';')
    if body.isEmpty then none
    else
      let rest := r2.drop body.length
      some ((String.mk w, String.mk (s.take (s.length - rest.length))), rest)
  else none

/-- JS regex `CREATE\s+POLICY\s+(\w+)\s+ON\s+(\w+)` with the `i` flag. -/
def policyStep (s : List Char) : Option ((String × String) × List Char) := do
  let r ← dropLitCI "create".toList s
  let r ← skipWs1 r
  let r ← dropLitCI "policy".toList r
  let r ← skipWs1 r
  let (pname, r) ← wordCapture r
  let r ← skipWs1 r
  let r ← dropLitCI "on".toList r
  let r ← skipWs1 r
  let (tname, rest) ← wordCapture r
  pure ((String.mk pname, String.mk tname), rest)

/-- JS regex `CREATE\s+(?:OR\s+REPLACE\s+)?FUNCTION\s+(\w+)` with the `i` flag. -/
def functionStep (s : List Char) : Option (String × List Char) := do
  let r ← dropLitCI "create".toList s
  let r ← skipWs1 r
  let r ← (match (do
      let r2 ← dropLitCI "or".toList r
      let r2 ← skipWs1 r2
      let r2 ← dropLitCI "replace".toList r2
      skipWs1 r2) with
    | some r2 => some r2
    | none => some r)
  let r ← dropLitCI "function".toList r
  let r ← skipWs1 r
  let (w, rest) ← wordCapture r
  pure (String.mk w, rest)

/-- JS regex `REFERENCES\s+(\w+)\s*\(` with the `i` flag. -/
def referencesStep (s : List Char) : Option (String × List Char) := do
  let r ← dropLitCI "references".toList s
  let r ← skipWs1 r
  let (w, r) ← wordCapture r
  match skipWs r with
  | c :: rest => if c == '(' then some (String.mk w, rest) else none
  | [] => none

/-- Tail `\s*\(\s*["'](\w+)["']\s*\)` shared by the two supabase table-reference
patterns. -/
def fromParen (r : List Char) : Option (String × List Char) := do
  let r ← (match skipWs r with
    | c :: t => if c == '(' then some t else none
    | [] => none)
  match skipWs r with
  | q :: t =>
    if isQuote q then do
      let (w, r2) ← wordCapture t
      match r2 with
      | q2 :: r3 =>
        if isQuote q2 then
          match skipWs r3 with
          | c :: rest => if c == ')' then some (String.mk w, rest) else none
          | [] => none
        else none
      | [] => none
    else none
  | [] => none

/-- JS regex `from\s*\(\s*["'](\w+)["']\s*\)` with the `i` flag. -/
def fromTableStepCI (s : List Char) : Option (String × List Char) := do
  let r ← dropLitCI "from".toList s
  fromParen r

/-- JS regex `\.from\s*\(\s*["'](\w+)["']\s*\)` (case-sensitive). -/
def dotFromTableStep (s : List Char) : Option (String × List Char) := do
  let r ← dropLit ".from".toList s
  fromParen r

/-- Report of `analyze_database_schema`. -/
structure SchemaReport where
  schemaFiles : List String
  totalFiles : Nat
  tables : List TableFact
  types : List TypeFact
  functions : List FnFact
  policies : List PolicyFact
  relationships : List RelFact
  supabaseUsage : List SupaUse
  totalTables : Nat
  totalTypes : Nat
  totalFunctions : Nat
  totalPolicies : Nat
  totalRelationships : Nat
  supabaseReferences : Nat
  hasSupabase : Bool
  hasSQL : Bool
  hasTypeScript : Bool
deriving DecidableEq

/-- The `analyze_database_schema` operation: pattern extraction over every
enumerated schema file, plus a supabase-reference pass over the first 30 source
files; any failed read in either loop aborts the operation. -/
def analyzeDatabaseSchema (env : Env) : OpResult SchemaReport :=
  match readAll env.fs env.schemaFiles with
  | none => .err readErrMsg
  | some sc =>
    match readAll env.fs (env.sourceFiles.take 30) with
    | none => .err readErrMsg
    | some cc =>
      let tables := (sc.map (fun fc => (scanAll createTableStep fc.2).map (fun nm =>
        TableFact.mk nm.1 fc.1 (truncDefn nm.2)))).flatten
      let types := (sc.map (fun fc =>
        ((scanAll interfaceStep fc.2).map (fun nm =>
          TypeFact.mk nm.1 fc.1 "interface" (truncDefn nm.2))) ++
        ((scanAll typeAliasStep fc.2).map (fun nm =>
          TypeFact.mk nm.1 fc.1 "type" (truncDefn nm.2))))).flatten
      let policies := (sc.map (fun fc => (scanAll policyStep fc.2).map (fun pt =>
        PolicyFact.mk pt.1 pt.2 fc.1))).flatten
      let functionFacts := (sc.map (fun fc => (scanAll functionStep fc.2).map (fun nm =>
        FnFact.mk nm fc.1))).flatten
      let relationships := (sc.map (fun fc => (scanAll referencesStep fc.2).map (fun nm =>
        RelFact.mk nm fc.1))).flatten
      let supabaseTypes := (sc.map (fun fc =>
        if containsSub "supabase".toList fc.2 || containsSub "Database".toList fc.2 then
          (scanAll fromTableStepCI fc.2).map (fun nm => SupaUse.mk nm fc.1)
        else [])).flatten
      let supabaseUsage := (cc.map (fun fc =>
        if containsSub "supabase".toList fc.2 then
          (scanAll dotFromTableStep fc.2).map (fun nm => SupaUse.mk nm fc.1)
        else [])).flatten
      .ok
        { schemaFiles := env.schemaFiles
          totalFiles := env.schemaFiles.length
          tables := tables.take 20
          types := types.take 20
          functions := functionFacts.take 10
          policies := policies.take 10
          relationships := relationships.take 10
          supabaseUsage := supabaseUsage.take 15
          totalTables := tables.length
          totalTypes := types.length
          totalFunctions := functionFacts.length
          totalPolicies := policies.length
          totalRelationships := relationships.length
          supabaseReferences := supabaseUsage.length
          hasSupabase := supabaseUsage.length > 0 || supabaseTypes.length > 0
          hasSQL := env.schemaFiles.any (fun f => endsWithSub f ".sql")
          hasTypeScript := env.schemaFiles.any (fun f => endsWithSub f ".ts") }

/-- The eight registered tool names, in registry order. -/
def toolNames : List String :=
  ["analyze_project", "get_components", "get_routing_structure", "analyze_dependencies",
    "get_tailwind_usage", "get_hooks_usage", "analyze_api_calls", "analyze_database_schema"]

/-- Outcome of one request-handler invocation as the external SDK sees it: a
response was returned (with the CallTool `isError` flag where applicable), or an
exception escaped the handler. -/
inductive Outcome
  | responded (isError : Bool)
  | raised (msg : String)
deriving DecidableEq

/-- Union of the eight tool results, for the dispatcher. -/
inductive ToolOutput where
  | project (r : OpResult ProjectReport)
  | components (r : OpResult ComponentsReport)
  | routing (r : OpResult RoutingReport)
  | deps (r : OpResult DepsReport)
  | tailwind (r : OpResult TailwindReport)
  | hooks (r : OpResult HooksReport)
  | api (r : OpResult ApiReport)
  | schema (r : OpResult SchemaReport)

/-- The CallTool switch: a registered name runs its operation; an unregistered
name hits the `default` case, which throws. -/
def dispatchTool (env : Env) (now : String) (name : String) : Option ToolOutput :=
  if name == "analyze_project" then some (.project (analyzeProject env now))
  else if name == "get_components" then some (.components (getComponents env))
  else if name == "get_routing_structure" then some (.routing (getRoutingStructure env))
  else if name == "analyze_dependencies" then some (.deps (analyzeDependencies env))
  else if name == "get_tailwind_usage" then some (.tailwind (getTailwindUsage env))
  else if name == "get_hooks_usage" then some (.hooks (getHooksUsage env))
  else if name == "analyze_api_calls" then some (.api (analyzeApiCalls env))
  else if name == "analyze_database_schema" then some (.schema (analyzeDatabaseSchema env))
  else none

/-- The CallTool request handler: its own try/catch converts the `Unknown tool`
throw of the switch into a response with `isError: true`, so the handler itself
never lets an exception escape.  The operations themselves always return (their
errors are JSON error objects inside an ordinary response). -/
def callToolOutcome (env : Env) (now : String) (name : String) : Outcome :=
  match dispatchTool env now name with
  | some _ => .responded false
  | none => .responded true

/-- Content of the `project://structure` resource. -/
structure StructureView where
  totalFiles : Nat
  files : List String
  directories : List String
deriving DecidableEq

/-- Content of one project resource. -/
inductive ResourceContent where
  | structureView (v : StructureView)
  | packageText (raw : Option (List Char))
  | componentsView (r : OpResult ComponentsReport)
  | routesView (r : OpResult RoutingReport)

/-- First path segment: JS `f.split('/')[0]`. -/
def firstSegmentOf (f : String) : String := String.mk ((f.toList.splitOn '/').headD [])

/-- The `readProjectResource` switch.  A known resource id resolves to its content
(for `package`, a failed manifest read is caught and an error object is returned
as the content text, modelled by `none`); an unknown id throws (`Except.error`). -/
def readProjectResource (env : Env) (uri : String) : Except String ResourceContent :=
  let resourceId := String.mk (replaceFirst "project://".toList uri.toList)
  if resourceId == "structure" then
    .ok (.structureView
      ⟨env.allFiles.length, env.allFiles.take 100,
        (firstSeen (env.allFiles.map firstSegmentOf)).filter (fun d => d != "")⟩)
  else if resourceId == "package" then .ok (.packageText env.packageRaw)
  else if resourceId == "components" then .ok (.componentsView (getComponents env))
  else if resourceId == "routes" then .ok (.routesView (getRoutingStructure env))
  else .error ("Unknown resource: " ++ resourceId)

/-- The ReadResource request handler: it has no try/catch of its own, so the
`Unknown resource` throw of `readProjectResource` escapes the handler. -/
def readResourceOutcome (env : Env) (uri : String) : Outcome :=
  match readProjectResource env uri with
  | .ok _ => .responded false
  | .error m => .raised m

/-- The three registered prompt names. -/
def promptNames : List String := ["code_review", "refactor_suggest", "performance_audit"]

/-- Prompt arguments object: an association list of strings. -/
abbrev PromptArgs := List (String × String)

/-- JS template interpolation of a possibly-missing argument field: an absent key
prints as `undefined`. -/
def argOf (args : PromptArgs) (k : String) : String :=
  (((args.find? (fun p => p.1 == k)).map (fun p => p.2))).getD "undefined"

/-- Message text of one prompt. -/
structure PromptResult where
  text : String
deriving DecidableEq

/-- The `getPrompt` switch: a registered name builds its fixed template text with
the single interpolated argument; an unknown name throws (`Except.error`). -/
def getPrompt (name : String) (args : PromptArgs) : Except String PromptResult :=
  if name == "code_review" then
    .ok ⟨"Please review the React component at " ++ argOf args "component_path" ++
      " and provide suggestions for improvements. Focus on:\n1. Code structure and organization\n2. Performance optimizations\n3. Accessibility compliance\n4. Best practices adherence\n5. Potential bugs or issues"⟩
  else if name == "refactor_suggest" then
    .ok ⟨"Analyze the file at " ++ argOf args "file_path" ++
      " and suggest refactoring improvements. Consider:\n1. Code duplication elimination\n2. Function extraction opportunities\n3. Better naming conventions\n4. Improved error handling\n5. Enhanced readability"⟩
  else if name == "performance_audit" then
    .ok ⟨"Perform a performance audit on the component \"" ++ argOf args "component_name" ++
      "\". Check for:\n1. Unnecessary re-renders\n2. Memory leaks\n3. Bundle size impact\n4. Load time optimizations\n5. Runtime performance bottlenecks"⟩
  else .error ("Unknown prompt: " ++ name)

/-- The GetPrompt request handler: it has no try/catch of its own, so the
`Unknown prompt` throw of `getPrompt` escapes the handler. -/
def getPromptOutcome (name : String) (args : PromptArgs) : Outcome :=
  match getPrompt name args with
  | .ok _ => .responded false
  | .error m => .raised m

/-- Environment of a completely empty project directory: no files, no manifest. -/
def emptyEnv : Env :=
  { root := "/proj"
    fs := fun _ => none
    manifest := none
    packageRaw := none
    sourceFiles := []
    componentFiles := []
    routingFiles := []
    schemaFiles := []
    allFiles := [] }

/-- Helper lemmas about the batch reader. -/
theorem readAll_eq_none {fs : FileSys} {files : List String} {f : String}
    (hmem : f ∈ files) (hf : fs f = none) : readAll fs files = none := by
  induction files with
  | nil => cases hmem
  | cons g rest ih =>
    cases hmem with
    | head => simp [readAll, hf]
    | tail _ hm =>
      cases hg : fs g with
      | none => simp [readAll, hg]
      | some c => simp [readAll, hg, ih hm]

/-- When every listed file is readable, the batch read succeeds and returns one
record per file. -/
theorem readAll_isSome {fs : FileSys} {files : List String}
    (h : ∀ f ∈ files, (fs f).isSome) :
    ∃ rc, readAll fs files = some rc ∧ rc.length = files.length := by
  induction files with
  | nil => exact ⟨[], rfl, rfl⟩
  | cons g rest ih =>
    have hg := h g (by simp)
    cases hgv : fs g with
    | none => rw [hgv] at hg; cases hg
    | some c =>
      obtain ⟨rc, hrc, hlen⟩ := ih (fun f hf => h f (by simp [hf]))
      exact ⟨(g, c) :: rc, by simp [readAll, hgv, hrc], by simp [hlen]⟩

/-- Bumping an existing key does not change the key sequence of the counter. -/
theorem bump_fst_of_mem {m : List (String × Nat)} {c : String}
    (h : m.any (fun p => p.1 == c) = true) :
    (bump m c).map Prod.fst = m.map Prod.fst := by
  simp only [bump, h, if_pos]
  rw [List.map_map]
  apply List.map_congr_left
  intro p _
  simp only [Function.comp_apply]
  split <;> rfl

/-- Bumping a new key appends it at the end of the key sequence. -/
theorem bump_fst_of_not_mem {m : List (String × Nat)} {c : String}
    (h : m.any (fun p => p.1 == c) = false) :
    (bump m c).map Prod.fst = m.map Prod.fst ++ [c] := by
  simp [bump, h]

/-- Boolean equality of strings is symmetric. -/
theorem beqComm (a b : String) : (a == b) = (b == a) := by
  cases h : a == b
  · cases h2 : b == a
    · rfl
    · rw [beq_iff_eq] at h2; subst h2; simp at h
  · rw [beq_iff_eq] at h; subst h; simp

/-- Membership test on the key sequence agrees with the counter's `any` test. -/
theorem contains_fst_eq_any (m : List (String × Nat)) (c : String) :
    (m.map Prod.fst).contains c = m.any (fun p => p.1 == c) := by
  induction m with
  | nil => rfl
  | cons p t ih =>
    rw [List.map_cons, List.contains_cons, List.any_cons, ih, beqComm c p.1]

/-- Keys of a counter folded from a sequence of bumps: the accumulator's keys
followed by the sequence's new values in first-encountered order. -/
theorem foldl_bump_fst (t : List String) :
    ∀ m : List (String × Nat),
      (t.foldl bump m).map Prod.fst = m.map Prod.fst ++ collectNew (m.map Prod.fst) t := by
  induction t with
  | nil => intro m; simp [collectNew]
  | cons c rest ih =>
    intro m
    cases h : m.any (fun p => p.1 == c) with
    | true =>
      have hc : (m.map Prod.fst).contains c = true := by
        rw [contains_fst_eq_any]; exact h
      have hrw : collectNew (m.map Prod.fst) (c :: rest) = collectNew (m.map Prod.fst) rest := by
        simp only [collectNew]
        rw [if_pos hc]
      rw [List.foldl_cons, ih (bump m c), bump_fst_of_mem h, hrw]
    | false =>
      have hc : (m.map Prod.fst).contains c = false := by
        rw [contains_fst_eq_any]; exact h
      have hrw : collectNew (m.map Prod.fst) (c :: rest) =
          c :: collectNew (m.map Prod.fst ++ [c]) rest := by
        simp only [collectNew]
        rw [if_neg (by rw [hc]; exact Bool.false_ne_true)]
      rw [List.foldl_cons, ih (bump m c), bump_fst_of_not_mem h, hrw]
      simp

/-- Keys of the frequency map are the distinct occurrences in first-encountered
order. -/
theorem tally_fst (occ : List String) : (tally occ).map Prod.fst = firstSeen occ := by
  simpa [tally, firstSeen] using foldl_bump_fst occ []

/-- The sorted entry list is a permutation of the position-tagged entries. -/
theorem rankEntries_perm (m : List (String × Nat)) : List.Perm (rankEntries m) m.enum :=
  List.perm_insertionSort rankLE m.enum

/-- The sorted entry list is strictly ordered: counts descend, and entries of
equal count keep their original relative position. -/
theorem rankEntries_pairwise (m : List (String × Nat)) :
    List.Pairwise (fun a b : Nat × String × Nat =>
      b.2.2 < a.2.2 ∨ (a.2.2 = b.2.2 ∧ a.1 < b.1)) (rankEntries m) := by
  have hs : List.Sorted rankLE (rankEntries m) :=
    List.sorted_insertionSort rankLE m.enum
  have hperm : List.Perm (rankEntries m) m.enum := rankEntries_perm m
  have hnd : ((rankEntries m).map Prod.fst).Nodup := by
    have h2 : (m.enum.map Prod.fst).Nodup := by
      rw [List.enum_map_fst]; exact List.nodup_range _
    exact ((hperm.map Prod.fst).nodup_iff).mpr h2
  have hne : List.Pairwise (fun a b : Nat × String × Nat => a.1 ≠ b.1) (rankEntries m) :=
    List.pairwise_map.mp hnd
  refine (hs.and hne).imp ?_
  rintro a b ⟨hle, hab⟩
  rcases hle with hlt | ⟨heq, hle2⟩
  · exact Or.inl hlt
  · exact Or.inr ⟨heq, lt_of_le_of_ne hle2 hab⟩

/-- Unfolding equation for the substring test. -/
theorem containsSub_cons (pat : List Char) (c : Char) (t : List Char) :
    containsSub pat (c :: t) = (pat.isPrefixOf (c :: t) || containsSub pat t) := rfl

/-- Patterns that occur nowhere in a text are not deleted by `replaceFirst`. -/
theorem replaceFirst_of_not_contains {pat s : List Char} (h : containsSub pat s = false) :
    replaceFirst pat s = s := by
  induction s with
  | nil => rfl
  | cons c t ih =>
    rw [containsSub_cons] at h
    obtain ⟨h1, h2⟩ := Bool.or_eq_false_iff.mp h
    simp only [replaceFirst]
    rw [if_neg (by rw [h1]; exact Bool.false_ne_true), ih h2]

/-- The `.jsx` pattern cannot begin inside a nonempty stem that does not contain
it and still reach into a trailing `.jsx`: the pattern has no self-overlap. -/
theorem jsx_not_prefix_append {u : List Char} (hu : u ≠ [])
    (h : containsSub jsxL u = false) : jsxL.isPrefixOf (u ++ jsxL) = false := by
  match u, hu with
  | [a], _ =>
    have hf : ('j' == '.') = false := by decide
    simp [jsxL, List.isPrefixOf, hf]
  | [a, b], _ =>
    have hf : ('s' == '.') = false := by decide
    simp [jsxL, List.isPrefixOf, hf]
  | [a, b, c], _ =>
    have hf : ('x' == '.') = false := by decide
    simp [jsxL, List.isPrefixOf, hf]
  | a :: b :: c :: d :: rest, _ =>
    cases hp : jsxL.isPrefixOf ((a :: b :: c :: d :: rest) ++ jsxL) with
    | false => rfl
    | true =>
      have hpre : jsxL <+: (a :: b :: c :: d :: rest) ++ jsxL :=
        List.isPrefixOf_iff_prefix.mp hp
      rw [List.prefix_iff_eq_take] at hpre
      have hlen : jsxL.length = 4 := by decide
      have htake : List.take 4 ((a :: b :: c :: d :: rest) ++ jsxL) = [a, b, c, d] := by
        simp [List.take]
      rw [hlen, htake] at hpre
      have hpref2 : jsxL.isPrefixOf (a :: b :: c :: d :: rest) = true := by
        rw [hpre]
        simp [List.isPrefixOf]
      rw [containsSub_cons, hpref2] at h
      simp at h

/-- Deleting the first `.jsx` occurrence from `stem ++ .jsx` returns the stem when
the stem itself does not contain the pattern. -/
theorem replaceFirst_jsx_append {stem : List Char} (h : containsSub jsxL stem = false) :
    replaceFirst jsxL (stem ++ jsxL) = stem := by
  induction stem with
  | nil => decide
  | cons c t ih =>
    have hnp : jsxL.isPrefixOf ((c :: t) ++ jsxL) = false :=
      jsx_not_prefix_append (by simp) h
    have h2 : containsSub jsxL t = false :=
      (Bool.or_eq_false_iff.mp ((containsSub_cons jsxL c t) ▸ h)).2
    rw [List.cons_append]
    simp only [replaceFirst]
    rw [if_neg (by rw [← List.cons_append, hnp]; exact Bool.false_ne_true), ih h2]

/-- The boolean suffix test agrees with the suffix relation. -/
theorem isSuffixOf_iff_suffix {l1 l2 : List Char} : l1.isSuffixOf l2 = true ↔ l1 <:+ l2 := by
  rw [show l1.isSuffixOf l2 = l1.reverse.isPrefixOf l2.reverse from rfl,
    List.isPrefixOf_iff_prefix, List.reverse_prefix]

/-- Node basename strips a genuine trailing `.tsx` extension. -/
theorem basenameExt_strip {stem : List Char} (h : stem ≠ []) :
    basenameExt tsxL (stem ++ tsxL) = stem := by
  have hne : (stem ++ tsxL == tsxL) = false := by
    rw [beq_eq_false_iff_ne]
    intro he
    have hlen := congrArg List.length he
    simp [tsxL] at hlen
    exact h hlen
  have hsuf : tsxL.isSuffixOf (stem ++ tsxL) = true :=
    isSuffixOf_iff_suffix.mpr (List.suffix_append stem tsxL)
  have hd : (stem ++ tsxL).length - tsxL.length = stem.length := by simp
  simp only [basenameExt]
  rw [if_neg (by rw [hne]; exact Bool.false_ne_true), if_pos hsuf, hd, List.take_left]

/-- Node basename leaves a `.jsx` base name alone when asked to strip `.tsx`. -/
theorem basenameExt_keep (stem : List Char) :
    basenameExt tsxL (stem ++ jsxL) = stem ++ jsxL := by
  have hne : (stem ++ jsxL == tsxL) = false := by
    rw [beq_eq_false_iff_ne]
    intro he
    have hlen := congrArg List.length he
    simp [jsxL, tsxL] at hlen
    subst hlen
    simp at he
    exact absurd he (by decide)
  have hsuf : tsxL.isSuffixOf (stem ++ jsxL) = false := by
    cases hs : tsxL.isSuffixOf (stem ++ jsxL) with
    | false => rfl
    | true =>
      have hsx := isSuffixOf_iff_suffix.mp hs
      rw [List.suffix_iff_eq_drop] at hsx
      have hd : (stem ++ jsxL).length - tsxL.length = stem.length := by simp [jsxL, tsxL]
      rw [hd, List.drop_left] at hsx
      exact absurd hsx (by decide)
  simp only [basenameExt]
  rw [if_neg (by rw [hne]; exact Bool.false_ne_true),
    if_neg (by rw [hsuf]; exact Bool.false_ne_true)]

/-- Component-name computation on a clean stem with either component extension. -/
theorem componentBase_clean {stem ext : List Char} (hext : ext = tsxL ∨ ext = jsxL)
    (hne : stem ≠ []) (h : containsSub jsxL stem = false) :
    componentBase (stem ++ ext) = stem := by
  rcases hext with h1 | h1 <;> subst h1
  · rw [componentBase, basenameExt_strip hne, replaceFirst_of_not_contains h]
  · rw [componentBase, basenameExt_keep, replaceFirst_jsx_append h]

/-- Environment with one readable component file `a.tsx` and one unreadable file
`b.tsx`. -/
def envC1bad : Env :=
  { root := "/proj"
    fs := fun f => if f == "a.tsx" then some "export default function A()".toList else none
    manifest := none
    packageRaw := none
    sourceFiles := []
    componentFiles := ["a.tsx", "b.tsx"]
    routingFiles := []
    schemaFiles := []
    allFiles := [] }

/-- The same environment with `b.tsx` readable as well. -/
def envC1ok : Env :=
  { envC1bad with
    fs := fun f =>
      if f == "a.tsx" then some "export default function A()".toList
      else if f == "b.tsx" then some [] else none }

/-- Claim C1 counterexample: with `a.tsx` readable and `b.tsx` unreadable,
`get_components` aborts with the structured error object instead of skipping
`b.tsx`; when both are readable it reports both files, so the failure of `b.tsx`
destroys the fact contributed by the readable `a.tsx`. -/
theorem c1_counterexample :
    (getComponents envC1bad).isErr = true ∧
    (getComponents envC1ok).getOk?.map (fun r => r.analyzed) = some 2 := by
  exact ⟨by decide, by decide⟩

/-- Claim C1 (amended): a read failure on one enumerated file is not recovered by
skipping that file: each of the five file-reading analyses wraps its whole loop in
one try/catch, so the first failed read aborts the entire operation, which returns
the structured error object (no exception propagates), and the facts of every
other readable file are discarded with it. -/
theorem c1_amended (env : Env) :
    ((∃ f ∈ env.componentFiles.take 20, env.fs f = none) →
      (getComponents env).isErr = true) ∧
    ((∃ f ∈ env.sourceFiles.take 50, env.fs f = none) →
      (getTailwindUsage env).isErr = true) ∧
    ((∃ f ∈ env.sourceFiles.take 50, env.fs f = none) →
      (getHooksUsage env).isErr = true) ∧
    ((∃ f ∈ env.sourceFiles.take 50, env.fs f = none) →
      (analyzeApiCalls env).isErr = true) ∧
    (((∃ f ∈ env.schemaFiles, env.fs f = none) ∨
        (∃ f ∈ env.sourceFiles.take 30, env.fs f = none)) →
      (analyzeDatabaseSchema env).isErr = true) := by
  refine ⟨?_, ?_, ?_, ?_, ?_⟩
  · rintro ⟨f, hf, hn⟩
    simp [getComponents, OpResult.isErr, readAll_eq_none hf hn]
  · rintro ⟨f, hf, hn⟩
    simp [getTailwindUsage, OpResult.isErr, readAll_eq_none hf hn]
  · rintro ⟨f, hf, hn⟩
    simp [getHooksUsage, OpResult.isErr, readAll_eq_none hf hn]
  · rintro ⟨f, hf, hn⟩
    simp [analyzeApiCalls, OpResult.isErr, readAll_eq_none hf hn]
  · rintro (⟨f, hf, hn⟩ | ⟨f, hf, hn⟩)
    · simp [analyzeDatabaseSchema, OpResult.isErr, readAll_eq_none hf hn]
    · cases hs : readAll env.fs env.schemaFiles with
      | none => simp [analyzeDatabaseSchema, OpResult.isErr, hs]
      | some sc => simp [analyzeDatabaseSchema, OpResult.isErr, hs, readAll_eq_none hf hn]

/-- Environment in which every enumerated file is unreadable. -/
def envC1all : Env :=
  { root := "/proj"
    fs := fun _ => none
    manifest := none
    packageRaw := none
    sourceFiles := ["s.ts"]
    componentFiles := ["c.tsx"]
    routingFiles := []
    schemaFiles := ["x.sql"]
    allFiles := [] }

/-- Claim C1 witness: the amended theorem applied to a concrete environment with
an unreadable file in every enumeration. -/
theorem c1_witness :
    (getComponents envC1all).isErr = true ∧ (getTailwindUsage envC1all).isErr = true ∧
    (getHooksUsage envC1all).isErr = true ∧ (analyzeApiCalls envC1all).isErr = true ∧
    (analyzeDatabaseSchema envC1all).isErr = true := by
  obtain ⟨h1, h2, h3, h4, h5⟩ := c1_amended envC1all
  exact ⟨h1 ⟨"c.tsx", by decide, rfl⟩, h2 ⟨"s.ts", by decide, rfl⟩,
    h3 ⟨"s.ts", by decide, rfl⟩, h4 ⟨"s.ts", by decide, rfl⟩,
    h5 (Or.inl ⟨"x.sql", by decide, rfl⟩)⟩

/-- Claim C2 counterexample: in the empty project directory the manifest is
absent, so `analyze_dependencies` — one of the eight analysis kinds — returns the
structured error object, not a zero-count report. -/
theorem c2_counterexample :
    analyzeDependencies emptyEnv = .err "No package.json found" := rfl

/-- Claim C2 (amended): for the empty project directory, seven of the eight
analysis kinds return a well-formed report with zero counts; the eighth,
`analyze_dependencies`, requires the manifest and returns the structured error
object instead. -/
theorem c2_amended (now : String) :
    analyzeProject emptyEnv now = .ok
      ⟨"/proj", "Unknown", "Unknown", 0, 0, 0, 0, 0,
        false, false, false, false, false, false, now⟩ ∧
    getComponents emptyEnv = .ok ⟨0, 0, []⟩ ∧
    getRoutingStructure emptyEnv = .ok ⟨[], [], 0, false⟩ ∧
    getTailwindUsage emptyEnv = .ok ⟨0, 0, 0, [], [], [], [], [], []⟩ ∧
    getHooksUsage emptyEnv = .ok ⟨0, 0, 0, [], [], []⟩ ∧
    analyzeApiCalls emptyEnv = .ok ⟨0, [], [], [], [], false, false, false⟩ ∧
    analyzeDatabaseSchema emptyEnv = .ok
      ⟨[], 0, [], [], [], [], [], [], 0, 0, 0, 0, 0, 0, false, false, false⟩ ∧
    (analyzeDependencies emptyEnv).isErr = true :=
  ⟨rfl, rfl, rfl, rfl, rfl, rfl, rfl, rfl⟩

/-- Claim C2 witness: the amended theorem applied at a concrete timestamp. -/
theorem c2_witness :
    getComponents emptyEnv = .ok ⟨0, 0, []⟩ ∧ (analyzeDependencies emptyEnv).isErr = true :=
  ⟨(c2_amended "t0").2.1, (c2_amended "t0").2.2.2.2.2.2.2⟩

/-- Claim C3: when the manifest is absent, `analyze_project` still succeeds and
reports `packageName = "Unknown"`, while `analyze_dependencies` returns the
structured error object rather than throwing. -/
theorem c3_manifest_absent (env : Env) (now : String) (h : env.manifest = none) :
    (analyzeProject env now).getOk?.map (fun r => r.packageName) = some "Unknown" ∧
    analyzeDependencies env = .err "No package.json found" := by
  constructor
  · simp [analyzeProject, OpResult.getOk?, h, orUnknown]
  · simp [analyzeDependencies, h]

/-- Claim C3 witness: the theorem applied to the empty environment. -/
theorem c3_witness :
    (analyzeProject emptyEnv "t0").getOk?.map (fun r => r.packageName) = some "Unknown" ∧
    analyzeDependencies emptyEnv = .err "No package.json found" :=
  c3_manifest_absent emptyEnv "t0" rfl

/-- Claim C4: dependency categorization is total and exclusive — every name gets
exactly one of the ten categories; the assignment is the first-match-wins
evaluation of the ordered rule list (so a name matching several rules, such as
one containing both `react` and `router`, goes to the earliest matching
category); and the category is a function of the name alone, independent of the
version argument. -/
theorem c4_categorization (name v1 v2 : String) :
    (∃! c : Category, categoryOf name = c) ∧
    categoryOf name = firstMatchCategory name ∧
    (categorizePackage name v1).1 = (categorizePackage name v2).1 :=
  ⟨⟨categoryOf name, rfl, fun _ hc => hc.symm⟩, rfl, rfl⟩

/-- Claim C4 witness: the theorem applied to a name matching both the `react` and
`router` rules, together with the concrete first-match outcome. -/
theorem c4_witness :
    ((∃! c : Category, categoryOf "react-router-dom" = c) ∧
      categoryOf "react-router-dom" = firstMatchCategory "react-router-dom" ∧
      (categorizePackage "react-router-dom" "1.0.0").1 =
        (categorizePackage "react-router-dom" "2.0.0").1) ∧
    categoryOf "react-router-dom" = Category.react :=
  ⟨c4_categorization "react-router-dom" "1.0.0" "2.0.0", by decide⟩

/-- Claim C5: frequency rankings are sorted by strictly descending count with
ties broken by first-encountered position (the sorted entry list is a
permutation of the position-tagged frequency entries, pairwise ordered by
descending count and ascending original position on equal counts; the keys of
the frequency map are the distinct occurrences in first-encountered order), the
ranked class list is the truncated sorted entry list, and aggregation is
deterministic: equal fact sequences yield identical ranked output. -/
theorem c5_ranking (m : List (String × Nat)) (occ occ2 : List String) :
    List.Pairwise (fun a b : Nat × String × Nat =>
      b.2.2 < a.2.2 ∨ (a.2.2 = b.2.2 ∧ a.1 < b.1)) (rankEntries m) ∧
    List.Perm (rankEntries m) m.enum ∧
    (tally occ).map Prod.fst = firstSeen occ ∧
    sortedClassesOf occ = (rankedPairs (tally occ)).take 30 ∧
    (occ = occ2 → sortedClassesOf occ = sortedClassesOf occ2 ∧
      rankedPairs (tally occ) = rankedPairs (tally occ2)) :=
  ⟨rankEntries_pairwise m, rankEntries_perm m, tally_fst occ, rfl,
    fun h => by rw [h]; exact ⟨rfl, rfl⟩⟩

/-- Claim C5 witness: the theorem applied to a concrete fact sequence, with the
determinism hypothesis discharged. -/
theorem c5_witness :
    List.Pairwise (fun a b : Nat × String × Nat =>
      b.2.2 < a.2.2 ∨ (a.2.2 = b.2.2 ∧ a.1 < b.1)) (rankEntries (tally ["b", "a", "a"])) ∧
    sortedClassesOf ["b", "a", "a"] = sortedClassesOf ["b", "a", "a"] := by
  obtain ⟨hp, -, -, -, hdet⟩ := c5_ranking (tally ["b", "a", "a"]) ["b", "a", "a"] ["b", "a", "a"]
  exact ⟨hp, (hdet rfl).1⟩

/-- The four registered resource ids (the `project://` URIs of
`getProjectResources`). -/
def resourceIds : List String := ["structure", "package", "components", "routes"]

/-- Claim C6 counterexample: for an unknown resource URI and an unknown prompt
name the switch default throws, and the ReadResource/GetPrompt handlers have no
try/catch, so the exception escapes the handler instead of being reported as a
structured error payload (only the CallTool handler converts its throw into an
error result). -/
theorem c6_counterexample :
    readResourceOutcome emptyEnv "project://nope" = .raised "Unknown resource: nope" ∧
    getPromptOutcome "nope" [] = .raised "Unknown prompt: nope" := by
  exact ⟨by decide, by decide⟩

/-- Claim C6 (amended): an unknown tool name is reported as an error result (the
CallTool handler's try/catch converts the switch's throw into a response with
`isError: true`), but an unknown resource URI or prompt name makes the
corresponding handler raise — `readProjectResource` and `getPrompt` throw and no
handler-level catch exists, so the exception propagates to the external SDK
layer rather than being returned as a `{ error: message }` payload. -/
theorem c6_amended (env : Env) (now name uri : String) (args : PromptArgs) :
    (name ∉ toolNames → callToolOutcome env now name = .responded true) ∧
    (String.mk (replaceFirst "project://".toList uri.toList) ∉ resourceIds →
      readResourceOutcome env uri =
        .raised ("Unknown resource: " ++ String.mk (replaceFirst "project://".toList uri.toList))) ∧
    (name ∉ promptNames → getPromptOutcome name args = .raised ("Unknown prompt: " ++ name)) := by
  refine ⟨?_, ?_, ?_⟩
  · intro h
    simp only [toolNames, List.mem_cons, List.not_mem_nil, or_false, not_or] at h
    obtain ⟨n1, n2, n3, n4, n5, n6, n7, n8⟩ := h
    simp [callToolOutcome, dispatchTool, beq_eq_false_iff_ne.mpr n1, beq_eq_false_iff_ne.mpr n2,
      beq_eq_false_iff_ne.mpr n3, beq_eq_false_iff_ne.mpr n4, beq_eq_false_iff_ne.mpr n5,
      beq_eq_false_iff_ne.mpr n6, beq_eq_false_iff_ne.mpr n7, beq_eq_false_iff_ne.mpr n8]
  · intro h
    simp only [resourceIds, List.mem_cons, List.not_mem_nil, or_false, not_or] at h
    obtain ⟨n1, n2, n3, n4⟩ := h
    simp only [readResourceOutcome, readProjectResource]
    rw [beq_eq_false_iff_ne.mpr n1, beq_eq_false_iff_ne.mpr n2, beq_eq_false_iff_ne.mpr n3,
      beq_eq_false_iff_ne.mpr n4]
    simp
  · intro h
    simp only [promptNames, List.mem_cons, List.not_mem_nil, or_false, not_or] at h
    obtain ⟨n1, n2, n3⟩ := h
    simp [getPromptOutcome, getPrompt, beq_eq_false_iff_ne.mpr n1,
      beq_eq_false_iff_ne.mpr n2, beq_eq_false_iff_ne.mpr n3]

/-- Claim C6 witness: the amended theorem applied to concrete unknown names. -/
theorem c6_witness :
    callToolOutcome emptyEnv "t0" "frobnicate" = .responded true ∧
    readResourceOutcome emptyEnv "project://blob" = .raised "Unknown resource: blob" ∧
    getPromptOutcome "frobnicate" [] = .raised "Unknown prompt: frobnicate" := by
  obtain ⟨h1, h2, h3⟩ := c6_amended emptyEnv "t0" "frobnicate" "project://blob" []
  refine ⟨h1 (by decide), ?_, h3 (by decide)⟩
  have h2c := h2 (by decide)
  rw [show String.mk (replaceFirst "project://".toList "project://blob".toList) = "blob"
    from by decide] at h2c
  exact h2c

/-- Content of the single source file of the C7 scenario. -/
def appContent : List Char := "<Route path=\"/home\">\nuseEffect(...)".toList

/-- Environment of the C7 scenario: a manifest declaring `react` and
`@supabase/supabase-js`, and the single source file `src/App.tsx`. -/
def c7env : Env :=
  { root := "/proj"
    fs := fun f => if f == "src/App.tsx" then some appContent else none
    manifest := some (PackageInfo.mk (some "app") (some "1.0.0")
      [("react", "18.0.0"), ("@supabase/supabase-js", "2.0.0")] [])
    packageRaw := none
    sourceFiles := ["src/App.tsx"]
    componentFiles := ["src/App.tsx"]
    routingFiles := ["src/App.tsx"]
    schemaFiles := []
    allFiles := ["package.json", "src/App.tsx"] }

/-- Claim C7 counterexample: in the scenario the routing report contains two
route facts with path `/home`, not one — `<Route path="/home">` matches both the
generic `path[:=]"..."` pattern and the JSX `<Route ...path="...">` pattern, and
each pattern contributes its own fact. -/
theorem c7_counterexample :
    (getRoutingStructure c7env).getOk?.map
      (fun r => (r.routes.map (fun rt : RouteFact => rt.path), r.totalRoutes)) =
      some (["/home", "/home"], 2) := by
  decide

/-- Claim C7 (amended): in the scenario, `analyze_project` reports
`hasReact = true` and `hasSupabase = true`, the routing report contains exactly
two route facts, both with path `/home` (one per matching pattern rule), and the
hooks report counts `useEffect` once (so its count is at least 1). -/
theorem c7_amended :
    (analyzeProject c7env "t0").getOk?.map (fun r => (r.hasReact, r.hasSupabase)) =
      some (true, true) ∧
    (getRoutingStructure c7env).getOk?.map
      (fun r => r.routes.map (fun rt : RouteFact => rt.path)) = some ["/home", "/home"] ∧
    (getHooksUsage c7env).getOk?.map (fun r => r.mostUsedHooks) = some [("useEffect", 1)] := by
  exact ⟨by decide, by decide, by decide⟩

/-- Environment with the single component file `A.jsx.tsx`. -/
def envC8 : Env :=
  { root := "/proj"
    fs := fun f => if f == "A.jsx.tsx" then some [] else none
    manifest := none
    packageRaw := none
    sourceFiles := []
    componentFiles := ["A.jsx.tsx"]
    routingFiles := []
    schemaFiles := []
    allFiles := [] }

/-- Modelled from the spec's words "a component name derived from the file's base
name with extension stripped": the last path segment with its final dot-led
extension removed. -/
def specBaseNameNoExt (file : String) : String :=
  let seg := lastSegment file.toList
  if seg.contains '.' then
    String.mk ((seg.reverse.dropWhile (fun c => c != '.')).drop 1).reverse
  else String.mk seg

/-- Claim C8 counterexample: for the component file `A.jsx.tsx` the report names
the component `A`, but the base name with its extension stripped is `A.jsx` —
`basename(file, '.tsx').replace('.jsx', '')` also deletes an inner `.jsx`
occurrence. -/
theorem c8_counterexample :
    (getComponents envC8).getOk?.map
      (fun r => r.components.map (fun ci : ComponentInfo => ci.name)) = some [["A"]].flatten ∧
    specBaseNameNoExt "A.jsx.tsx" = "A.jsx" ∧ ("A" : String) ≠ "A.jsx" := by
  exact ⟨by decide, by decide, by decide⟩

/-- Claim C8 (amended): the reported component name is the base name with a
trailing `.tsx` stripped and then the first `.jsx` occurrence deleted; for every
component file whose base name is a nonempty stem followed by `.tsx` or `.jsx`
where the stem does not itself contain `.jsx`, this equals the base name with
its extension stripped, i.e. the stem. -/
theorem c8_amended (file : String) (content : List Char) (stem ext : List Char)
    (hseg : lastSegment file.toList = stem ++ ext) (hext : ext = tsxL ∨ ext = jsxL)
    (hne : stem ≠ []) (hclean : containsSub jsxL stem = false) :
    (componentOf file content).name = String.mk stem := by
  show componentName file = String.mk stem
  rw [componentName, hseg, componentBase_clean hext hne hclean]

/-- Claim C8 witness: the amended theorem applied to the file `src/Button.tsx`. -/
theorem c8_witness : (componentOf "src/Button.tsx" []).name = "Button" := by
  have h := c8_amended "src/Button.tsx" [] "Button".toList tsxL (by decide) (Or.inl rfl)
    (by decide) (by decide)
  exact h

/-- Claim C9: when the first 20 enumerated component files are readable,
`get_components` succeeds, `analyzed` and the length of the component list equal
`min 20 totalComponents`, `totalComponents` is the full enumerated count, and
`analyzed ≤ totalComponents` and `analyzed ≤ 20`. -/
theorem c9_components_cap (env : Env)
    (h : ∀ f ∈ env.componentFiles.take 20, (env.fs f).isSome) :
    ∃ r, getComponents env = .ok r ∧
      r.analyzed = min 20 env.componentFiles.length ∧
      r.components.length = r.analyzed ∧
      r.totalComponents = env.componentFiles.length ∧
      r.analyzed ≤ r.totalComponents ∧ r.analyzed ≤ 20 := by
  obtain ⟨rc, hrc, hlen⟩ := readAll_isSome h
  have hgc : getComponents env = .ok
      ⟨env.componentFiles.length, rc.length, rc.map (fun fc => componentOf fc.1 fc.2)⟩ := by
    simp [getComponents, hrc]
  refine ⟨_, hgc, ?_, ?_, rfl, ?_, ?_⟩
  all_goals simp only [hlen, List.length_take, List.length_map, inf_eq_min]
  all_goals omega

/-- Environment with two readable component files. -/
def envC9 : Env :=
  { root := "/proj"
    fs := fun _ => some []
    manifest := none
    packageRaw := none
    sourceFiles := []
    componentFiles := ["a.tsx", "b.tsx"]
    routingFiles := []
    schemaFiles := []
    allFiles := [] }

/-- Claim C9 witness: the theorem applied to a concrete readable environment. -/
theorem c9_witness :
    ∃ r, getComponents envC9 = .ok r ∧
      r.analyzed = min 20 envC9.componentFiles.length ∧
      r.components.length = r.analyzed ∧
      r.totalComponents = envC9.componentFiles.length ∧
      r.analyzed ≤ r.totalComponents ∧ r.analyzed ≤ 20 :=
  c9_components_cap envC9 (fun _ _ => rfl)

/-- Claim C10: the tailwind pattern buckets are computed from the top-30 ranked
classes only — every bucket entry is one of the top-30 `sortedClasses` entries
(so a class outside the top 30 never appears in a bucket, whatever the prefix
rules say), every bucket is truncated to at most 10 entries, and the top list
itself has at most 30. -/
theorem c10_buckets (occ : List String) :
    (sortedClassesOf occ).length ≤ 30 ∧
    (bucketOf layoutPred occ).length ≤ 10 ∧ (bucketOf colorsPred occ).length ≤ 10 ∧
    (bucketOf typographyPred occ).length ≤ 10 ∧ (bucketOf responsivePred occ).length ≤ 10 ∧
    (∀ p : String × Nat,
      (p ∈ bucketOf layoutPred occ ∨ p ∈ bucketOf colorsPred occ ∨
        p ∈ bucketOf typographyPred occ ∨ p ∈ bucketOf responsivePred occ) →
      p ∈ sortedClassesOf occ) := by
  refine ⟨List.length_take_le _ _, List.length_take_le _ _, List.length_take_le _ _,
    List.length_take_le _ _, List.length_take_le _ _, ?_⟩
  intro p hp
  rcases hp with h | h | h | h <;>
    exact List.mem_of_mem_filter (List.mem_of_mem_take h)

/-- Claim C10 witness: the theorem applied to a concrete token sequence with a
nonempty layout bucket. -/
theorem c10_witness :
    ("flex", 1) ∈ sortedClassesOf ["flex"] ∧ (bucketOf layoutPred ["flex"]).length ≤ 10 := by
  obtain ⟨-, hl, -, -, -, hmem⟩ := c10_buckets ["flex"]
  exact ⟨hmem ("flex", 1) (Or.inl (by decide)), hl⟩

end Lovable
